import Mathlib

/-!
Verification of the token-manager repository: a client-side NFT minting form.

The embedding models the two source files:
* `NFTMinter` (the mint orchestrator `handleMint`): React component state is
  modelled as an explicit record `MintState`; the external world (the two
  Pinata pinning calls and the on-chain submission with the wallet signer)
  is modelled by an `Env` record holding each call's outcome, where `none`
  means the call throws (network failure / signing rejection / chain
  rejection) and `some v` the value the code extracts from the response.
  `handleMint` returns the final component state, the ordered trace of
  external calls issued, and the list of toast notifications shown.
* `AttributeList` (`handleRemoveAttribute`): the JS indexed filter
  `attributes.filter((_, i) => i !== index)`.
-/

namespace TokenManager

/-- An attribute key/value pair: `{ trait_type: string, value: string }`. -/
structure Attribute where
  trait_type : String
  value : String
  deriving DecidableEq

/-- The metadata object literal built in `handleMint` step 2:
`{ name, description, symbol, image: imageUrl }` (field order as in source). -/
structure Metadata where
  name : String
  description : String
  symbol : String
  image : String
  deriving DecidableEq

/-- The key/value pairs of the JSON serialization of the metadata object,
in source order.  `axios.post` with content type `application/json`
serializes exactly the object's own fields. -/
def Metadata.serializedFields (m : Metadata) : List (String × String) :=
  [("name", m.name), ("description", m.description),
   ("symbol", m.symbol), ("image", m.image)]

/-- The field names of the serialized metadata JSON document. -/
def Metadata.keys (m : Metadata) : List String :=
  m.serializedFields.map Prod.fst

/-- One external call issued by `handleMint`:
the two Pinata pinning uploads and the two on-chain creation paths
(`create` from mpl-core, `createNft` from mpl-token-metadata, each followed
by `sendAndConfirm`). -/
inductive ExtCall where
  | pinFileToIPFS (file : String)
  | pinJSONToIPFS (metadata : Metadata)
  | create (name uri : String)
  | createNft (name uri : String)
  deriving DecidableEq

/-- A toast notification: title, description, and whether the
`destructive` variant was used. -/
structure Toast where
  title : String
  description : String
  destructive : Bool
  deriving DecidableEq

/-- The component state of `NFTMinter` (the `useState` hooks). The image
file handle is modelled as an optional string (its content/name); `null`
is `none`. -/
structure MintState where
  name : String
  symbol : String
  description : String
  image : Option String
  isMinting : Bool
  transactionLink : String
  metadataUri : String
  imageUrl : String
  useCore : Bool
  deriving DecidableEq

/-- Outcomes of the external calls `handleMint` may issue.
`none` models the call throwing; `some v` models success, carrying the
value the code extracts (`IpfsHash` for the uploads, the base58 signature
string for `sendAndConfirm`).  `assetOrMintPublicKey` is the public key of
the fresh signer from `generateSigner`. -/
structure Env where
  pinFileResult : Option String
  pinJSONResult : Option String
  sendAndConfirmResult : Option String
  assetOrMintPublicKey : String
  deriving DecidableEq

/-- Result of one `handleMint` invocation: final component state, ordered
trace of external calls issued, toasts shown. -/
structure MintOutcome where
  state : MintState
  calls : List ExtCall
  toasts : List Toast
  deriving DecidableEq

/-- Toast shown when `!publicKey || !wallet`. -/
def walletNotConnectedToast : Toast :=
  ⟨"Wallet not connected", "Please connect your wallet first", true⟩

/-- Toast shown when `!name || !symbol || !description || !image`. -/
def missingInformationToast : Toast :=
  ⟨"Missing information", "Please fill in all fields", true⟩

/-- Toast shown by the catch-all error handler. -/
def errorMintingToast : Toast :=
  ⟨"Error minting NFT", "Please try again", true⟩

/-- Success toast; its description interpolates the fresh asset public key. -/
def mintSuccessToast (assetPublicKey : String) : Toast :=
  ⟨"NFT minted successfully!", "Mint address: " ++ assetPublicKey, false⟩

/-- IPFS gateway retrieval URL built from a content hash. -/
def gatewayUrl (ipfsHash : String) : String :=
  "https://gateway.pinata.cloud/ipfs/" ++ ipfsHash

/-- Block-explorer transaction URL built from the base58 signature. -/
def explorerTxUrl (signature : String) : String :=
  "https://explorer.solana.com/tx/" ++ signature ++ "?cluster=devnet"

/-- The `handleMint` handler of `NFTMinter`.  `publicKey` and `wallet` are
the two values from `useWallet` tested by the first guard; `env` fixes the
outcome of each external call; `s` is the component state at click time.
Each step mirrors the source: guard toasts and early returns, then
`setIsMinting(true)`, the two pinning uploads (recording `setImageUrl` /
`setMetadataUri` as soon as each succeeds), the mode-flag branch between
`create` and `createNft`, the success path (`setTransactionLink`, success
toast, clearing the four base fields), the catch-all error toast, and the
`finally` block resetting `isMinting`. -/
def handleMint (publicKey wallet : Option String) (env : Env)
    (s : MintState) : MintOutcome :=
  if publicKey = none ∨ wallet = none then
    ⟨s, [], [walletNotConnectedToast]⟩
  else if s.name = "" ∨ s.symbol = "" ∨ s.description = "" ∨ s.image = none then
    ⟨s, [], [missingInformationToast]⟩
  else
    let file := s.image.getD ""
    let s1 : MintState := { s with isMinting := true }
    match env.pinFileResult with
    | none =>
        ⟨{ s1 with isMinting := false },
          [ExtCall.pinFileToIPFS file],
          [errorMintingToast]⟩
    | some imageHash =>
        let imageUrl := gatewayUrl imageHash
        let s2 : MintState := { s1 with imageUrl := imageUrl }
        let metadata : Metadata := ⟨s.name, s.description, s.symbol, imageUrl⟩
        match env.pinJSONResult with
        | none =>
            ⟨{ s2 with isMinting := false },
              [ExtCall.pinFileToIPFS file, ExtCall.pinJSONToIPFS metadata],
              [errorMintingToast]⟩
        | some metadataHash =>
            let metadataUri := gatewayUrl metadataHash
            let s3 : MintState := { s2 with metadataUri := metadataUri }
            let chainCall : ExtCall :=
              if s.useCore then ExtCall.create metadata.name metadataUri
              else ExtCall.createNft metadata.name metadataUri
            match env.sendAndConfirmResult with
            | none =>
                ⟨{ s3 with isMinting := false },
                  [ExtCall.pinFileToIPFS file, ExtCall.pinJSONToIPFS metadata,
                   chainCall],
                  [errorMintingToast]⟩
            | some signature =>
                let transactionLink := explorerTxUrl signature
                let s4 : MintState := { s3 with transactionLink := transactionLink }
                let s5 : MintState := { s4 with name := "", symbol := "", description := "", image := none, isMinting := false }
                ⟨s5,
                  [ExtCall.pinFileToIPFS file, ExtCall.pinJSONToIPFS metadata,
                   chainCall],
                  [mintSuccessToast env.assetOrMintPublicKey]⟩

/-- The metadata JSON documents among a trace of external calls (the
payloads of `pinJSONToIPFS` calls, in order). -/
def uploadedMetadatas (calls : List ExtCall) : List Metadata :=
  calls.filterMap fun c =>
    match c with
    | ExtCall.pinJSONToIPFS m => some m
    | _ => none

/-- Whether an external call is an on-chain submission (either path). -/
def isChainCall : ExtCall → Bool
  | ExtCall.create _ _ => true
  | ExtCall.createNft _ _ => true
  | _ => false

/-- Whether an external call is the mpl-core creation path. -/
def isCoreCall : ExtCall → Bool
  | ExtCall.create _ _ => true
  | _ => false

/-- Whether an external call is the token-metadata creation path. -/
def isTokenMetadataCall : ExtCall → Bool
  | ExtCall.createNft _ _ => true
  | _ => false

/-- Indexed filter: the semantics of JS `Array.prototype.filter` with the
element-index callback `(_, i) => i !== index`, counting from `n`. -/
def removeFilterGo (index : Int) : Nat → List Attribute → List Attribute
  | _, [] => []
  | i, a :: rest =>
    if (i : Int) ≠ index then a :: removeFilterGo index (i + 1) rest
    else removeFilterGo index (i + 1) rest

/-- `handleRemoveAttribute` of `AttributeList`:
`attributes.filter((_, i) => i !== index)`.  The index is an `Int` so that
out-of-range (including negative) indices are representable. -/
def handleRemoveAttribute (attributes : List Attribute) (index : Int) :
    List Attribute :=
  removeFilterGo index 0 attributes

/-- Sample inputs used by witnesses. -/
def sampleAttributes : List Attribute :=
  [⟨"color", "red"⟩, ⟨"size", "large"⟩, ⟨"rarity", "epic"⟩]

def sampleState : MintState :=
  { name := "MyNFT", symbol := "MNFT", description := "a test nft",
    image := some "cat.png", isMinting := false, transactionLink := "",
    metadataUri := "", imageUrl := "", useCore := false }

def sampleEnv : Env :=
  { pinFileResult := some "QmImg", pinJSONResult := some "QmMeta",
    sendAndConfirmResult := some "SigXYZ", assetOrMintPublicKey := "Asset1111" }

def sampleChainFailEnv : Env :=
  { pinFileResult := some "QmImg", pinJSONResult := some "QmMeta",
    sendAndConfirmResult := none, assetOrMintPublicKey := "Asset1111" }

/-- If the target index is never hit from position `n` on, the indexed
filter keeps the whole list. -/
theorem removeFilterGo_skip (index : Int) :
    ∀ (l : List Attribute) (n : Nat),
      (index < (n : Int) ∨ (n : Int) + l.length ≤ index) →
      removeFilterGo index n l = l := by
  intro l
  induction l with
  | nil => intro n _; rfl
  | cons a rest ih =>
    intro n h
    have hne : (n : Int) ≠ index := by
      rcases h with h | h
      · omega
      · simp only [List.length_cons] at h
        push_cast at h
        omega
    rw [removeFilterGo, if_pos hne, ih (n + 1)]
    rcases h with h | h
    · left; push_cast; omega
    · right
      simp only [List.length_cons] at h
      push_cast at h ⊢
      omega

/-- If the target index is hit at offset `k` from position `n`, the indexed
filter deletes exactly that element. -/
theorem removeFilterGo_hit (index : Int) :
    ∀ (l : List Attribute) (n k : Nat), k < l.length →
      index = (n : Int) + k →
      removeFilterGo index n l = l.take k ++ l.drop (k + 1) := by
  intro l
  induction l with
  | nil => intro n k hk _; simp at hk
  | cons a rest ih =>
    intro n k hk hidx
    cases k with
    | zero =>
      have heq : ¬((n : Int) ≠ index) := by push_cast at hidx; omega
      rw [removeFilterGo, if_neg heq]
      simp only [List.take_zero, List.drop_succ_cons, List.drop_zero,
        List.nil_append]
      exact removeFilterGo_skip index rest (n + 1) (by push_cast at hidx ⊢; omega)
    | succ k =>
      have hne : (n : Int) ≠ index := by push_cast at hidx; omega
      rw [removeFilterGo, if_pos hne]
      simp only [List.take_succ_cons, List.drop_succ_cons, List.cons_append,
        List.cons.injEq, true_and]
      exact ih (n + 1) k (by simpa using hk) (by push_cast at hidx ⊢; omega)

/-- C7: for every attribute list and every in-range index `i`, the
remove-attribute operation returns the list with exactly the element at
position `i` deleted, preserving the relative order of the rest. -/
theorem c7_remove_attribute_in_range (attributes : List Attribute) (i : Nat)
    (h : i < attributes.length) :
    handleRemoveAttribute attributes (i : Int) =
      attributes.take i ++ attributes.drop (i + 1) :=
  removeFilterGo_hit (i : Int) attributes 0 i h (by push_cast; ring)

theorem c7_witness :
    1 < sampleAttributes.length ∧
    handleRemoveAttribute sampleAttributes (1 : Nat) =
      sampleAttributes.take 1 ++ sampleAttributes.drop 2 :=
  ⟨by decide, c7_remove_attribute_in_range sampleAttributes 1 (by decide)⟩

/-- C9: for every attribute list and every out-of-range index (negative or
at least the list's length), the remove-attribute operation returns the
input list unchanged. -/
theorem c9_remove_attribute_out_of_range (attributes : List Attribute)
    (index : Int)
    (h : index < 0 ∨ (attributes.length : Int) ≤ index) :
    handleRemoveAttribute attributes index = attributes :=
  removeFilterGo_skip index attributes 0 (by push_cast; omega)

theorem c9_witness :
    ((-2 : Int) < 0 ∨ (sampleAttributes.length : Int) ≤ -2) ∧
    handleRemoveAttribute sampleAttributes (-2) = sampleAttributes :=
  ⟨Or.inl (by decide),
   c9_remove_attribute_out_of_range sampleAttributes (-2) (Or.inl (by decide))⟩

/-- C2: whenever the signing identity is absent (`publicKey` or `wallet`
missing) or any of the fields name, symbol, description, image is empty, a
user-facing error toast is shown and `handleMint` returns with no external
call issued and the component state (including `isMinting`) unchanged. -/
theorem c2_validation_guard (publicKey wallet : Option String) (env : Env)
    (s : MintState)
    (h : publicKey = none ∨ wallet = none ∨ s.name = "" ∨ s.symbol = "" ∨
      s.description = "" ∨ s.image = none) :
    (handleMint publicKey wallet env s).state = s ∧
    (handleMint publicKey wallet env s).calls = [] ∧
    ((handleMint publicKey wallet env s).toasts = [walletNotConnectedToast] ∨
      (handleMint publicKey wallet env s).toasts = [missingInformationToast]) := by
  by_cases h1 : publicKey = none ∨ wallet = none
  · unfold handleMint
    rw [if_pos h1]
    exact ⟨rfl, rfl, Or.inl rfl⟩
  · have h2 : s.name = "" ∨ s.symbol = "" ∨ s.description = "" ∨
        s.image = none := by tauto
    unfold handleMint
    rw [if_neg h1, if_pos h2]
    exact ⟨rfl, rfl, Or.inr rfl⟩

theorem c2_witness :
    ((none : Option String) = none ∨ (some "w" : Option String) = none ∨
      sampleState.name = "" ∨ sampleState.symbol = "" ∨
      sampleState.description = "" ∨ sampleState.image = none) ∧
    ((handleMint none (some "w") sampleEnv sampleState).state = sampleState ∧
     (handleMint none (some "w") sampleEnv sampleState).calls = [] ∧
     ((handleMint none (some "w") sampleEnv sampleState).toasts =
        [walletNotConnectedToast] ∨
      (handleMint none (some "w") sampleEnv sampleState).toasts =
        [missingInformationToast])) :=
  ⟨Or.inl rfl,
   c2_validation_guard none (some "w") sampleEnv sampleState (Or.inl rfl)⟩

/-- C3: a successful run (wallet connected, all fields present, all three
external calls succeed) issues exactly the image upload, then the metadata
upload, then one on-chain submission, in that order and nothing else, and
ends with the success toast. -/
theorem c3_success_trace (pk w file imageHash metadataHash signature : String)
    (env : Env) (s : MintState)
    (hname : s.name ≠ "") (hsym : s.symbol ≠ "") (hdesc : s.description ≠ "")
    (himg : s.image = some file)
    (h1 : env.pinFileResult = some imageHash)
    (h2 : env.pinJSONResult = some metadataHash)
    (h3 : env.sendAndConfirmResult = some signature) :
    (handleMint (some pk) (some w) env s).calls =
      [ExtCall.pinFileToIPFS file,
       ExtCall.pinJSONToIPFS ⟨s.name, s.description, s.symbol, gatewayUrl imageHash⟩,
       if s.useCore then ExtCall.create s.name (gatewayUrl metadataHash)
       else ExtCall.createNft s.name (gatewayUrl metadataHash)] ∧
    (handleMint (some pk) (some w) env s).toasts =
      [mintSuccessToast env.assetOrMintPublicKey] := by
  have hpw : ¬((some pk : Option String) = none ∨ (some w : Option String) = none) := by
    simp
  have hval : ¬(s.name = "" ∨ s.symbol = "" ∨ s.description = "" ∨
      s.image = none) := by
    simp [hname, hsym, hdesc, himg]
  unfold handleMint
  rw [if_neg hpw, if_neg hval, himg, h1, h2, h3]
  exact ⟨rfl, rfl⟩

theorem c3_witness :
    sampleState.name ≠ "" ∧ sampleState.symbol ≠ "" ∧
    sampleState.description ≠ "" ∧ sampleState.image = some "cat.png" ∧
    sampleEnv.pinFileResult = some "QmImg" ∧
    sampleEnv.pinJSONResult = some "QmMeta" ∧
    sampleEnv.sendAndConfirmResult = some "SigXYZ" ∧
    ((handleMint (some "pk") (some "w") sampleEnv sampleState).calls =
      [ExtCall.pinFileToIPFS "cat.png",
       ExtCall.pinJSONToIPFS ⟨sampleState.name, sampleState.description,
         sampleState.symbol, gatewayUrl "QmImg"⟩,
       if sampleState.useCore then
         ExtCall.create sampleState.name (gatewayUrl "QmMeta")
       else ExtCall.createNft sampleState.name (gatewayUrl "QmMeta")] ∧
     (handleMint (some "pk") (some "w") sampleEnv sampleState).toasts =
      [mintSuccessToast sampleEnv.assetOrMintPublicKey]) :=
  ⟨by decide, by decide, by decide, rfl, rfl, rfl, rfl,
   c3_success_trace "pk" "w" "cat.png" "QmImg" "QmMeta" "SigXYZ" sampleEnv
     sampleState (by decide) (by decide) (by decide) rfl rfl rfl rfl⟩

/-- C4: whenever a mint attempt reaches the on-chain step (validation
passed and both uploads succeeded), the issuance mode flag selects exactly
one of the two creation paths: with the flag set the trace contains the
mpl-core `create` call as its only on-chain call, with the flag clear the
token-metadata `createNft` call; never both. -/
theorem c4_mode_flag_selects_path (pk w file imageHash metadataHash : String)
    (env : Env) (s : MintState)
    (hname : s.name ≠ "") (hsym : s.symbol ≠ "") (hdesc : s.description ≠ "")
    (himg : s.image = some file)
    (h1 : env.pinFileResult = some imageHash)
    (h2 : env.pinJSONResult = some metadataHash) :
    (s.useCore = true →
      ((handleMint (some pk) (some w) env s).calls.filter isChainCall =
        [ExtCall.create s.name (gatewayUrl metadataHash)] ∧
       (handleMint (some pk) (some w) env s).calls.filter isTokenMetadataCall = [])) ∧
    (s.useCore = false →
      ((handleMint (some pk) (some w) env s).calls.filter isChainCall =
        [ExtCall.createNft s.name (gatewayUrl metadataHash)] ∧
       (handleMint (some pk) (some w) env s).calls.filter isCoreCall = [])) := by
  have hpw : ¬((some pk : Option String) = none ∨ (some w : Option String) = none) := by
    simp
  have hval : ¬(s.name = "" ∨ s.symbol = "" ∨ s.description = "" ∨
      s.image = none) := by
    simp [hname, hsym, hdesc, himg]
  unfold handleMint
  rw [if_neg hpw, if_neg hval, himg, h1, h2]
  cases h3 : env.sendAndConfirmResult with
  | none =>
    constructor
    · intro hc
      simp [hc, isChainCall, isTokenMetadataCall, List.filter]
    · intro hc
      simp [hc, isChainCall, isCoreCall, List.filter]
  | some signature =>
    constructor
    · intro hc
      simp [hc, isChainCall, isTokenMetadataCall, List.filter]
    · intro hc
      simp [hc, isChainCall, isCoreCall, List.filter]

theorem c4_witness :
    sampleState.name ≠ "" ∧ sampleState.symbol ≠ "" ∧
    sampleState.description ≠ "" ∧ sampleState.image = some "cat.png" ∧
    sampleEnv.pinFileResult = some "QmImg" ∧
    sampleEnv.pinJSONResult = some "QmMeta" ∧
    ((sampleState.useCore = true →
      ((handleMint (some "pk") (some "w") sampleEnv sampleState).calls.filter
          isChainCall =
        [ExtCall.create sampleState.name (gatewayUrl "QmMeta")] ∧
       (handleMint (some "pk") (some "w") sampleEnv sampleState).calls.filter
          isTokenMetadataCall = [])) ∧
     (sampleState.useCore = false →
      ((handleMint (some "pk") (some "w") sampleEnv sampleState).calls.filter
          isChainCall =
        [ExtCall.createNft sampleState.name (gatewayUrl "QmMeta")] ∧
       (handleMint (some "pk") (some "w") sampleEnv sampleState).calls.filter
          isCoreCall = []))) :=
  ⟨by decide, by decide, by decide, rfl, rfl, rfl,
   c4_mode_flag_selects_path "pk" "w" "cat.png" "QmImg" "QmMeta" sampleEnv
     sampleState (by decide) (by decide) (by decide) rfl rfl rfl⟩

/-- C5: any failure after validation (image upload, metadata upload, or
signing/chain submission) ends the attempt with `isMinting` reset to false
and exactly one generic failure toast, the same toast for every step. -/
theorem c5_failure_generic_toast (pk w file : String) (env : Env)
    (s : MintState)
    (hname : s.name ≠ "") (hsym : s.symbol ≠ "") (hdesc : s.description ≠ "")
    (himg : s.image = some file)
    (hfail : env.pinFileResult = none ∨ env.pinJSONResult = none ∨
      env.sendAndConfirmResult = none) :
    (handleMint (some pk) (some w) env s).state.isMinting = false ∧
    (handleMint (some pk) (some w) env s).toasts = [errorMintingToast] := by
  have hpw : ¬((some pk : Option String) = none ∨ (some w : Option String) = none) := by
    simp
  have hval : ¬(s.name = "" ∨ s.symbol = "" ∨ s.description = "" ∨
      s.image = none) := by
    simp [hname, hsym, hdesc, himg]
  unfold handleMint
  rw [if_neg hpw, if_neg hval]
  cases hA : env.pinFileResult with
  | none => exact ⟨rfl, rfl⟩
  | some imageHash =>
    cases hB : env.pinJSONResult with
    | none => exact ⟨rfl, rfl⟩
    | some metadataHash =>
      cases hC : env.sendAndConfirmResult with
      | none => exact ⟨rfl, rfl⟩
      | some signature =>
        rw [hA, hB, hC] at hfail
        rcases hfail with h | h | h <;> exact absurd h (by simp)

theorem c5_witness :
    sampleState.name ≠ "" ∧ sampleState.symbol ≠ "" ∧
    sampleState.description ≠ "" ∧ sampleState.image = some "cat.png" ∧
    (sampleChainFailEnv.pinFileResult = none ∨
      sampleChainFailEnv.pinJSONResult = none ∨
      sampleChainFailEnv.sendAndConfirmResult = none) ∧
    ((handleMint (some "pk") (some "w") sampleChainFailEnv sampleState).state.isMinting = false ∧
     (handleMint (some "pk") (some "w") sampleChainFailEnv sampleState).toasts =
      [errorMintingToast]) :=
  ⟨by decide, by decide, by decide, rfl, Or.inr (Or.inr rfl),
   c5_failure_generic_toast "pk" "w" "cat.png" sampleChainFailEnv sampleState
     (by decide) (by decide) (by decide) rfl (Or.inr (Or.inr rfl))⟩

/-- C6: after a successful run the four base form fields are reset to
empty, and the two retrieval URLs plus the human-readable transaction link
are stored for display (and the submitting flag is back to false). -/
theorem c6_success_resets_form (pk w file imageHash metadataHash signature : String)
    (env : Env) (s : MintState)
    (hname : s.name ≠ "") (hsym : s.symbol ≠ "") (hdesc : s.description ≠ "")
    (himg : s.image = some file)
    (h1 : env.pinFileResult = some imageHash)
    (h2 : env.pinJSONResult = some metadataHash)
    (h3 : env.sendAndConfirmResult = some signature) :
    (handleMint (some pk) (some w) env s).state.name = "" ∧
    (handleMint (some pk) (some w) env s).state.symbol = "" ∧
    (handleMint (some pk) (some w) env s).state.description = "" ∧
    (handleMint (some pk) (some w) env s).state.image = none ∧
    (handleMint (some pk) (some w) env s).state.imageUrl = gatewayUrl imageHash ∧
    (handleMint (some pk) (some w) env s).state.metadataUri = gatewayUrl metadataHash ∧
    (handleMint (some pk) (some w) env s).state.transactionLink =
      explorerTxUrl signature ∧
    (handleMint (some pk) (some w) env s).state.isMinting = false := by
  have hpw : ¬((some pk : Option String) = none ∨ (some w : Option String) = none) := by
    simp
  have hval : ¬(s.name = "" ∨ s.symbol = "" ∨ s.description = "" ∨
      s.image = none) := by
    simp [hname, hsym, hdesc, himg]
  unfold handleMint
  rw [if_neg hpw, if_neg hval, himg, h1, h2, h3]
  exact ⟨rfl, rfl, rfl, rfl, rfl, rfl, rfl, rfl⟩

theorem c6_witness :
    sampleState.name ≠ "" ∧ sampleState.symbol ≠ "" ∧
    sampleState.description ≠ "" ∧ sampleState.image = some "cat.png" ∧
    sampleEnv.pinFileResult = some "QmImg" ∧
    sampleEnv.pinJSONResult = some "QmMeta" ∧
    sampleEnv.sendAndConfirmResult = some "SigXYZ" ∧
    ((handleMint (some "pk") (some "w") sampleEnv sampleState).state.name = "" ∧
     (handleMint (some "pk") (some "w") sampleEnv sampleState).state.symbol = "" ∧
     (handleMint (some "pk") (some "w") sampleEnv sampleState).state.description = "" ∧
     (handleMint (some "pk") (some "w") sampleEnv sampleState).state.image = none ∧
     (handleMint (some "pk") (some "w") sampleEnv sampleState).state.imageUrl =
       gatewayUrl "QmImg" ∧
     (handleMint (some "pk") (some "w") sampleEnv sampleState).state.metadataUri =
       gatewayUrl "QmMeta" ∧
     (handleMint (some "pk") (some "w") sampleEnv sampleState).state.transactionLink =
       explorerTxUrl "SigXYZ" ∧
     (handleMint (some "pk") (some "w") sampleEnv sampleState).state.isMinting = false) :=
  ⟨by decide, by decide, by decide, rfl, rfl, rfl, rfl,
   c6_success_resets_form "pk" "w" "cat.png" "QmImg" "QmMeta" "SigXYZ"
     sampleEnv sampleState (by decide) (by decide) (by decide) rfl rfl rfl rfl⟩

/-- C8: any failure after validation leaves the form input fields (name,
symbol, description, image) and the issuance mode flag exactly as they
were at submission time, so the same form can be resubmitted. -/
theorem c8_failure_preserves_form (pk w file : String) (env : Env)
    (s : MintState)
    (hname : s.name ≠ "") (hsym : s.symbol ≠ "") (hdesc : s.description ≠ "")
    (himg : s.image = some file)
    (hfail : env.pinFileResult = none ∨ env.pinJSONResult = none ∨
      env.sendAndConfirmResult = none) :
    (handleMint (some pk) (some w) env s).state.name = s.name ∧
    (handleMint (some pk) (some w) env s).state.symbol = s.symbol ∧
    (handleMint (some pk) (some w) env s).state.description = s.description ∧
    (handleMint (some pk) (some w) env s).state.image = s.image ∧
    (handleMint (some pk) (some w) env s).state.useCore = s.useCore := by
  have hpw : ¬((some pk : Option String) = none ∨ (some w : Option String) = none) := by
    simp
  have hval : ¬(s.name = "" ∨ s.symbol = "" ∨ s.description = "" ∨
      s.image = none) := by
    simp [hname, hsym, hdesc, himg]
  unfold handleMint
  rw [if_neg hpw, if_neg hval]
  cases hA : env.pinFileResult with
  | none => exact ⟨rfl, rfl, rfl, rfl, rfl⟩
  | some imageHash =>
    cases hB : env.pinJSONResult with
    | none => exact ⟨rfl, rfl, rfl, rfl, rfl⟩
    | some metadataHash =>
      cases hC : env.sendAndConfirmResult with
      | none => exact ⟨rfl, rfl, rfl, rfl, rfl⟩
      | some signature =>
        rw [hA, hB, hC] at hfail
        rcases hfail with h | h | h <;> exact absurd h (by simp)

theorem c8_witness :
    sampleState.name ≠ "" ∧ sampleState.symbol ≠ "" ∧
    sampleState.description ≠ "" ∧ sampleState.image = some "cat.png" ∧
    (sampleChainFailEnv.pinFileResult = none ∨
      sampleChainFailEnv.pinJSONResult = none ∨
      sampleChainFailEnv.sendAndConfirmResult = none) ∧
    ((handleMint (some "pk") (some "w") sampleChainFailEnv sampleState).state.name =
       sampleState.name ∧
     (handleMint (some "pk") (some "w") sampleChainFailEnv sampleState).state.symbol =
       sampleState.symbol ∧
     (handleMint (some "pk") (some "w") sampleChainFailEnv sampleState).state.description =
       sampleState.description ∧
     (handleMint (some "pk") (some "w") sampleChainFailEnv sampleState).state.image =
       sampleState.image ∧
     (handleMint (some "pk") (some "w") sampleChainFailEnv sampleState).state.useCore =
       sampleState.useCore) :=
  ⟨by decide, by decide, by decide, rfl, Or.inr (Or.inr rfl),
   c8_failure_preserves_form "pk" "w" "cat.png" sampleChainFailEnv sampleState
     (by decide) (by decide) (by decide) rfl (Or.inr (Or.inr rfl))⟩

/-- C10: when both uploads succeed and the on-chain submission fails, the
displayed image URL and metadata URI have already been updated to the
freshly uploaded values and are not rolled back by the failure path. -/
theorem c10_partial_state_on_chain_failure (pk w file imageHash metadataHash : String)
    (env : Env) (s : MintState)
    (hname : s.name ≠ "") (hsym : s.symbol ≠ "") (hdesc : s.description ≠ "")
    (himg : s.image = some file)
    (h1 : env.pinFileResult = some imageHash)
    (h2 : env.pinJSONResult = some metadataHash)
    (h3 : env.sendAndConfirmResult = none) :
    (handleMint (some pk) (some w) env s).state.imageUrl = gatewayUrl imageHash ∧
    (handleMint (some pk) (some w) env s).state.metadataUri = gatewayUrl metadataHash ∧
    (handleMint (some pk) (some w) env s).toasts = [errorMintingToast] := by
  have hpw : ¬((some pk : Option String) = none ∨ (some w : Option String) = none) := by
    simp
  have hval : ¬(s.name = "" ∨ s.symbol = "" ∨ s.description = "" ∨
      s.image = none) := by
    simp [hname, hsym, hdesc, himg]
  unfold handleMint
  rw [if_neg hpw, if_neg hval, himg, h1, h2, h3]
  exact ⟨rfl, rfl, rfl⟩

theorem c10_witness :
    sampleState.name ≠ "" ∧ sampleState.symbol ≠ "" ∧
    sampleState.description ≠ "" ∧ sampleState.image = some "cat.png" ∧
    sampleChainFailEnv.pinFileResult = some "QmImg" ∧
    sampleChainFailEnv.pinJSONResult = some "QmMeta" ∧
    sampleChainFailEnv.sendAndConfirmResult = none ∧
    ((handleMint (some "pk") (some "w") sampleChainFailEnv sampleState).state.imageUrl =
       gatewayUrl "QmImg" ∧
     (handleMint (some "pk") (some "w") sampleChainFailEnv sampleState).state.metadataUri =
       gatewayUrl "QmMeta" ∧
     (handleMint (some "pk") (some "w") sampleChainFailEnv sampleState).toasts =
       [errorMintingToast]) :=
  ⟨by decide, by decide, by decide, rfl, rfl, rfl, rfl,
   c10_partial_state_on_chain_failure "pk" "w" "cat.png" "QmImg" "QmMeta"
     sampleChainFailEnv sampleState (by decide) (by decide) (by decide) rfl
     rfl rfl rfl⟩

/-- C1 counterexample: in a concrete successful run, the metadata document
uploaded to the pinning service has exactly the keys name, description,
symbol, image — there is no attributes field, so the claim that the
document contains five fields including attributes is false. -/
theorem c1_counterexample :
    uploadedMetadatas (handleMint (some "pk") (some "w") sampleEnv sampleState).calls =
      [⟨"MyNFT", "a test nft", "MNFT", gatewayUrl "QmImg"⟩] ∧
    Metadata.keys ⟨"MyNFT", "a test nft", "MNFT", gatewayUrl "QmImg"⟩ =
      ["name", "description", "symbol", "image"] ∧
    "attributes" ∉ Metadata.keys ⟨"MyNFT", "a test nft", "MNFT", gatewayUrl "QmImg"⟩ :=
  ⟨rfl, rfl, by decide⟩

/-- C1 (amended): the metadata document built for a mint attempt contains
exactly the four fields name, description, symbol and image (the uploaded
image's retrieval URI), taken from the Form Input plus the image upload
result; no attributes field is included. -/
theorem c1_metadata_document_fields (pk w file imageHash : String)
    (env : Env) (s : MintState)
    (hname : s.name ≠ "") (hsym : s.symbol ≠ "") (hdesc : s.description ≠ "")
    (himg : s.image = some file)
    (h1 : env.pinFileResult = some imageHash) :
    uploadedMetadatas (handleMint (some pk) (some w) env s).calls =
      [⟨s.name, s.description, s.symbol, gatewayUrl imageHash⟩] ∧
    Metadata.serializedFields ⟨s.name, s.description, s.symbol, gatewayUrl imageHash⟩ =
      [("name", s.name), ("description", s.description), ("symbol", s.symbol),
       ("image", gatewayUrl imageHash)] := by
  have hpw : ¬((some pk : Option String) = none ∨ (some w : Option String) = none) := by
    simp
  have hval : ¬(s.name = "" ∨ s.symbol = "" ∨ s.description = "" ∨
      s.image = none) := by
    simp [hname, hsym, hdesc, himg]
  unfold handleMint
  rw [if_neg hpw, if_neg hval, himg, h1]
  cases hB : env.pinJSONResult with
  | none => exact ⟨rfl, rfl⟩
  | some metadataHash =>
    cases hC : env.sendAndConfirmResult with
    | none =>
      cases hc : s.useCore <;>
        simp [uploadedMetadatas, hc, Metadata.serializedFields]
    | some signature =>
      cases hc : s.useCore <;>
        simp [uploadedMetadatas, hc, Metadata.serializedFields]

theorem c1_witness :
    sampleState.name ≠ "" ∧ sampleState.symbol ≠ "" ∧
    sampleState.description ≠ "" ∧ sampleState.image = some "cat.png" ∧
    sampleEnv.pinFileResult = some "QmImg" ∧
    (uploadedMetadatas (handleMint (some "pk") (some "w") sampleEnv sampleState).calls =
      [⟨sampleState.name, sampleState.description, sampleState.symbol,
        gatewayUrl "QmImg"⟩] ∧
     Metadata.serializedFields ⟨sampleState.name, sampleState.description,
        sampleState.symbol, gatewayUrl "QmImg"⟩ =
      [("name", sampleState.name), ("description", sampleState.description),
       ("symbol", sampleState.symbol), ("image", gatewayUrl "QmImg")]) :=
  ⟨by decide, by decide, by decide, rfl, rfl,
   c1_metadata_document_fields "pk" "w" "cat.png" "QmImg" sampleEnv
     sampleState (by decide) (by decide) (by decide) rfl rfl⟩

end TokenManager
